import Mathlib

/-!
Verification of the ESP32S3 BLE keyboard/mouse bridge against its
natural-language specification.

The development shallowly embeds the C sources:
* the ring-buffer motion resampler of `main/mouse_accumulator.h`
  (scheme A implementation: `ring_push`, `ring_peek`, `ring_pop_batch`,
  `mouse_accumulator_add`, `mouse_accumulator_try_send`,
  `mouse_accumulator_clear`);
* the HID report-descriptor layout parser of `main/hid_report_parser.c`
  (`parse_hid_report_descriptor_layouts`);
* the bit extractors and the mouse / generic report callbacks of the
  HID host glue (`get_bits_u32`, `get_bits_s32`, layout selection and
  decoding in `hid_host_mouse_report_callback`,
  `hid_host_generic_report_callback`).

Machine integers are modelled as `Nat` / `Int` with explicit reduction
modulo `2^32`, `2^16`, `2^8` where the C code relies on fixed-width
wrap-around.  Stateful code is modelled by explicit state passing: the
global accumulator `g_acc` becomes a value of type `AccState` threaded
through the operations, the current time (`esp_timer_get_time`) and the
result of the BLE sink call (`mouse_accumulator_send_ble_report`) become
parameters of the functions that consult them.
-/

namespace BleBridge

/-- 2^32, the modulus of the C `uint32_t` fields. -/
def U32 : Nat := 4294967296

/-- Constant `RING_BUFFER_CAPACITY` from the scheme-A accumulator header (128). -/
def RING_BUFFER_CAPACITY : Nat := 128

/-- Constant `EVENT_FLAG_BUTTON_CHANGED` (bit 0 of the event `flags` byte). -/
def EVENT_FLAG_BUTTON_CHANGED : Nat := 1

/-- One `mouse_event_t` record of the ring buffer: timestamp in
microseconds, displacements (already int16 / int8 values, held as `Int`),
button byte and flag byte (held as `Nat` below 256). -/
structure MouseEvent where
  t_us : Nat
  dx : Int
  dy : Int
  wheel : Int
  buttons : Nat
  flags : Nat
deriving Repr, DecidableEq, Inhabited

/-- The `mouse_event_ring_t` struct: a 128-slot backing store plus the
`head`, `tail`, `count`, `overflow_count` `uint32_t` fields.  The
backing array `events[RING_BUFFER_CAPACITY]` is modelled as a list of
length 128. -/
structure EventRing where
  events : List MouseEvent
  head : Nat
  tail : Nat
  count : Nat
  overflow_count : Nat
deriving Repr, DecidableEq

/-- The `mouse_motion_accumulator_t` aggregate (scheme A): ring buffer,
send watermark, saturation residuals, button bookkeeping and the
diagnostic counters. -/
structure AccState where
  ring : EventRing
  t_last_send_us : Nat
  residual_dx : Int
  residual_dy : Int
  residual_wheel : Int
  last_known_buttons : Nat
  last_usb_buttons : Nat
  total_events_pushed : Nat
  total_events_popped : Nat
  total_packets_sent : Nat
  total_send_failures : Nat
deriving Repr, DecidableEq

/-- The zero-initialised global `g_acc` (all counters 0, empty ring). -/
def initialAccState : AccState :=
  { ring := { events := List.replicate RING_BUFFER_CAPACITY default
              head := 0, tail := 0, count := 0, overflow_count := 0 }
    t_last_send_us := 0
    residual_dx := 0, residual_dy := 0, residual_wheel := 0
    last_known_buttons := 0, last_usb_buttons := 0
    total_events_pushed := 0, total_events_popped := 0
    total_packets_sent := 0, total_send_failures := 0 }

/-- Function `clamp_s32` from `mouse_accumulator.h`. -/
def clamp_s32 (value min_val max_val : Int) : Int :=
  if value < min_val then min_val
  else if value > max_val then max_val
  else value

/-- Function `ring_push`: below capacity the event is written at `head & MASK`
and `head`/`count` advance; at capacity the slot at `head & MASK` is
overwritten, `head` and `tail` both advance (dropping the oldest event)
and `overflow_count` is incremented while `count` stays put.  The C
`& RING_BUFFER_MASK` on a `uint32_t` equals `% 128` here because
128 divides 2^32. -/
def ring_push (s : AccState) (e : MouseEvent) : AccState :=
  if s.ring.count < RING_BUFFER_CAPACITY then
    { s with
      ring := { s.ring with
        events := s.ring.events.set (s.ring.head % RING_BUFFER_CAPACITY) e
        head := (s.ring.head + 1) % U32
        count := (s.ring.count + 1) % U32 }
      total_events_pushed := (s.total_events_pushed + 1) % U32 }
  else
    { s with
      ring := { s.ring with
        events := s.ring.events.set (s.ring.head % RING_BUFFER_CAPACITY) e
        head := (s.ring.head + 1) % U32
        tail := (s.ring.tail + 1) % U32
        overflow_count := (s.ring.overflow_count + 1) % U32 }
      total_events_pushed := (s.total_events_pushed + 1) % U32 }

/-- Function `ring_peek` at `idx`: the event at offset `idx` from `tail`, or `none`
when `idx` is out of range. -/
def ring_peek (s : AccState) (idx : Nat) : Option MouseEvent :=
  if idx < s.ring.count then
    some (s.ring.events.getD ((s.ring.tail + idx) % RING_BUFFER_CAPACITY) default)
  else
    none

/-- Function `ring_pop_batch`: advances `tail` by `min num_to_pop count` and
decreases `count` accordingly (the C code first truncates `num_to_pop`
to `count`). -/
def ring_pop_batch (s : AccState) (num_to_pop : Nat) : AccState :=
  let n := if num_to_pop > s.ring.count then s.ring.count else num_to_pop
  { s with
    ring := { s.ring with
      tail := (s.ring.tail + n) % U32
      count := s.ring.count - n }
    total_events_popped := (s.total_events_popped + n) % U32 }

/-- Function `mouse_accumulator_clear`: resets the ring indices (the backing
array and `overflow_count` are kept), zeroes the residuals and the
button bookkeeping, and moves the watermark to the present time. -/
def mouse_accumulator_clear (s : AccState) (t_now : Nat) : AccState :=
  { s with
    ring := { s.ring with head := 0, tail := 0, count := 0 }
    t_last_send_us := t_now
    residual_dx := 0, residual_dy := 0, residual_wheel := 0
    last_known_buttons := 0, last_usb_buttons := 0 }

/-- Function `mouse_accumulator_add`: builds a `mouse_event_t` stamped with the
current time, keeps only the low 5 button bits, sets the
button-changed flag when the raw button byte differs from
`last_usb_buttons` (updating the latter), and pushes the event. -/
def mouse_accumulator_add (s : AccState) (t_now : Nat)
    (dx dy wheel : Int) (buttons : Nat) : AccState :=
  let changed := s.last_usb_buttons ≠ buttons
  let e : MouseEvent :=
    { t_us := t_now, dx := dx, dy := dy, wheel := wheel
      buttons := buttons &&& 0x1F
      flags := if changed then EVENT_FLAG_BUTTON_CHANGED else 0 }
  let s' := if changed then { s with last_usb_buttons := buttons } else s
  ring_push s' e

/-- The ring contents from `tail` forward, in consumption order, as the
consumer's peek loop observes them (slot `i` is `events[(tail+i) & MASK]`). -/
def ringList (s : AccState) : List MouseEvent :=
  (List.range s.ring.count).map
    (fun i => s.ring.events.getD ((s.ring.tail + i) % RING_BUFFER_CAPACITY) default)

/-- The events the preview loop of `mouse_accumulator_try_send` visits:
it walks the ring from `tail` and stops at the first event stamped
after `t_now`. -/
def windowEvents (s : AccState) (t_now : Nat) : List MouseEvent :=
  (ringList s).takeWhile (fun e => e.t_us ≤ t_now)

/-- Value `num_to_consume` computed by the preview loop. -/
def numToConsume (s : AccState) (t_now : Nat) : Nat :=
  (windowEvents s t_now).length

/-- Value `sum_dx` after the preview loop: the residual seeds the sum, then
every in-window event's `dx` is added. -/
def previewSumDx (s : AccState) (t_now : Nat) : Int :=
  s.residual_dx + ((windowEvents s t_now).map (fun e => e.dx)).sum

/-- Value `sum_dy` after the preview loop. -/
def previewSumDy (s : AccState) (t_now : Nat) : Int :=
  s.residual_dy + ((windowEvents s t_now).map (fun e => e.dy)).sum

/-- Value `sum_wheel` after the preview loop. -/
def previewSumWheel (s : AccState) (t_now : Nat) : Int :=
  s.residual_wheel + ((windowEvents s t_now).map (fun e => e.wheel)).sum

/-- Value `btn` after the preview loop: the buttons of the last in-window
event, defaulting to `last_known_buttons` when the window is empty. -/
def previewBtn (s : AccState) (t_now : Nat) : Nat :=
  ((windowEvents s t_now).map (fun e => e.buttons)).getLastD s.last_known_buttons

/-- Value `button_dirty` after the preview loop: some in-window event carries
`EVENT_FLAG_BUTTON_CHANGED`. -/
def previewButtonDirty (s : AccState) (t_now : Nat) : Bool :=
  (windowEvents s t_now).any (fun e => e.flags &&& EVENT_FLAG_BUTTON_CHANGED ≠ 0)

/-- Value `motion_dirty` after the preview loop: some in-window event moved. -/
def previewMotionDirty (s : AccState) (t_now : Nat) : Bool :=
  (windowEvents s t_now).any (fun e => e.dx ≠ 0 ∨ e.dy ≠ 0 ∨ e.wheel ≠ 0)

/-- Low byte of an `int16_t` value. -/
def int16LoByte (v : Int) : Nat := (v % 65536).toNat &&& 0xFF

/-- High byte of an `int16_t` value (arithmetic shift then mask, as the
C cast chain `(uint8_t)((v >> 8) & 0xFF)` produces). -/
def int16HiByte (v : Int) : Nat := ((v % 65536).toNat >>> 8) &&& 0xFF

/-- The `uint8_t` image of an `int8_t` value. -/
def int8Byte (v : Int) : Nat := (v % 256).toNat

/-- Result of one `mouse_accumulator_try_send` tick: the state after the
call, and the 6-byte report handed to `mouse_accumulator_send_ble_report`
when the sink was invoked (`none` when the tick returned early). -/
structure TickResult where
  state : AccState
  sent : Option (List Nat)
deriving Repr, DecidableEq

/-- Function `mouse_accumulator_try_send`.  Here `t_now` stands for
`esp_timer_get_time()`, `connected` for
`mouse_accumulator_is_ble_connected()`, and `send_ok` for the success of
`mouse_accumulator_send_ble_report` when it is reached.  The preview
loop is rendered by the `preview*` functions over `windowEvents` (the C
loop computes them in one pass over the same prefix of the ring). -/
def mouse_accumulator_try_send (s : AccState) (t_now : Nat)
    (connected send_ok : Bool) : TickResult :=
  if !connected then
    { state := s, sent := none }
  else
    let motion_dirty := previewMotionDirty s t_now
    let button_dirty := previewButtonDirty s t_now
    if !motion_dirty && !button_dirty then
      { state := s, sent := none }
    else
      let sum_dx := previewSumDx s t_now
      let sum_dy := previewSumDy s t_now
      let sum_wheel := previewSumWheel s t_now
      let btn := previewBtn s t_now
      let num_to_consume := numToConsume s t_now
      let dx_send := clamp_s32 sum_dx (-32767) 32767
      let new_residual_dx := sum_dx - dx_send
      let dy_send := clamp_s32 sum_dy (-32767) 32767
      let new_residual_dy := sum_dy - dy_send
      let wheel_send := clamp_s32 sum_wheel (-127) 127
      let new_residual_wheel := sum_wheel - wheel_send
      let report : List Nat :=
        [btn &&& 0x1F,
         int16LoByte dx_send, int16HiByte dx_send,
         int16LoByte dy_send, int16HiByte dy_send,
         int8Byte wheel_send]
      if send_ok then
        let s1 := if num_to_consume > 0 then ring_pop_batch s num_to_consume else s
        { state :=
            { s1 with
              t_last_send_us := t_now
              residual_dx := new_residual_dx
              residual_dy := new_residual_dy
              residual_wheel := new_residual_wheel
              last_known_buttons := btn
              total_packets_sent := (s1.total_packets_sent + 1) % U32 }
          sent := some report }
      else
        { state := { s with total_send_failures := (s.total_send_failures + 1) % U32 }
          sent := some report }

/-- The loop body of `get_bits_u32`: starting at loop index `i` with
`remaining` iterations left and accumulator `value`, OR in one bit per
iteration; when `byte_index` runs past `data_len` the C `break` returns
the accumulator as is. -/
def getBitsLoop (data : List Nat) (bit_offset : Nat) :
    Nat → Nat → Nat → Nat
  | _, 0, value => value
  | i, remaining + 1, value =>
    let bit_index := bit_offset + i
    let byte_index := bit_index / 8
    if byte_index ≥ data.length then value
    else
      let bit := (data.getD byte_index 0 >>> (bit_index % 8)) &&& 0x1
      getBitsLoop data bit_offset (i + 1) remaining (value ||| (bit <<< i))

/-- Function `get_bits_u32` of the HID host glue: little-endian bit extraction;
`bit_size == 0` or `bit_size > 32` returns 0 outright; the loop stops
silently at the end of the buffer.  `data_len` is the length of the
modelled buffer. -/
def get_bits_u32 (data : List Nat) (bit_offset bit_size : Nat) : Nat :=
  if bit_size = 0 ∨ bit_size > 32 then 0
  else getBitsLoop data bit_offset 0 bit_size 0

/-- Interpret a `uint32_t` bit pattern as the C `(int32_t)` cast does. -/
def toInt32 (u : Nat) : Int :=
  if u % U32 < 2147483648 then ((u % U32 : Nat) : Int)
  else ((u % U32 : Nat) : Int) - (U32 : Int)

/-- Function `get_bits_s32`: unsigned extraction followed by sign extension from
`bit_size` (the mask `(~0u) << bit_size` is the `uint32_t` value
`2^32 - 2^bit_size` for `bit_size < 32`). -/
def get_bits_s32 (data : List Nat) (bit_offset bit_size : Nat) : Int :=
  let u := get_bits_u32 data bit_offset bit_size
  if bit_size = 0 then 0
  else
    let sign_bit := 1 <<< (bit_size - 1)
    if u &&& sign_bit ≠ 0 then
      let mask := ((U32 - 1) <<< bit_size) % U32
      toInt32 (u ||| mask)
    else toInt32 u

/-- The value of bit `bit_index` of the buffer, with every bit past the
end of the buffer read as zero. -/
def bitAt (data : List Nat) (bit_index : Nat) : Nat :=
  if bit_index / 8 < data.length then
    (data.getD (bit_index / 8) 0 >>> (bit_index % 8)) &&& 0x1
  else 0

/-- The value assembled from `bit_size` buffer bits starting at
`bit_offset` (bit `i` of the buffer run becomes bit `i` of the result),
out-of-range bits reading as zero.  This is the specification-side
description of the extractor against which `get_bits_u32` is compared. -/
def assembledBits (data : List Nat) (bit_offset : Nat) : Nat → Nat → Nat
  | _, 0 => 0
  | i, remaining + 1 =>
    (bitAt data (bit_offset + i) <<< i) ||| assembledBits data bit_offset (i + 1) remaining

/- =====================================================================
   HID report-descriptor layout parser (`hid_report_parser.c`)
   ===================================================================== -/

/-- The `hid_report_layout_t` struct. -/
structure HidReportLayout where
  report_id : Nat
  buttons_count : Nat
  buttons_bit_offset : Nat
  x_bit_offset : Nat
  x_size : Nat
  y_bit_offset : Nat
  y_size : Nat
  wheel_bit_offset : Nat
  wheel_size : Nat
  report_size_bits : Nat
deriving Repr, DecidableEq, Inhabited

/-- The zero-filled layout produced by the parser's `memset`. -/
def emptyLayout : HidReportLayout :=
  { report_id := 0, buttons_count := 0, buttons_bit_offset := 0
    x_bit_offset := 0, x_size := 0, y_bit_offset := 0, y_size := 0
    wheel_bit_offset := 0, wheel_size := 0, report_size_bits := 0 }

/-- Parser working state of `parse_hid_report_descriptor_layouts`:
the global/local item state plus the per-report-id tables
`tmp_layouts`, `report_used`, `report_bits` (indexed by report id). -/
structure ParserState where
  usage_page : Nat
  report_size : Nat
  report_count : Nat
  current_report_id : Nat
  last_usage : Nat
  usage_min : Nat
  usage_max : Nat
  have_usage_min_max : Bool
  report_used : Nat → Bool
  report_bits : Nat → Nat
  tmp_layouts : Nat → HidReportLayout

/-- Initial parser state (tables zeroed). -/
def initParserState : ParserState :=
  { usage_page := 0, report_size := 0, report_count := 0
    current_report_id := 0, last_usage := 0, usage_min := 0, usage_max := 0
    have_usage_min_max := false
    report_used := fun _ => false
    report_bits := fun _ => 0
    tmp_layouts := fun _ => emptyLayout }

/-- Update one slot of a per-report-id table. -/
def updAt {α : Type} (f : Nat → α) (idx : Nat) (v : α) : Nat → α :=
  fun j => if j = idx then v else f j

/-- Mark `current_report_id` as used, seeding its running bit offset
with 8 when the id is non-zero (`report_bits[id] = id ? 8 : 0`). -/
def markReportUsed (st : ParserState) : ParserState :=
  if st.report_used st.current_report_id then st
  else
    let seed := if st.current_report_id ≠ 0 then 8 else 0
    let L' := { emptyLayout with report_id := st.current_report_id }
    { st with
      report_used := updAt st.report_used st.current_report_id true
      report_bits := updAt st.report_bits st.current_report_id seed
      tmp_layouts := updAt st.tmp_layouts st.current_report_id L' }

/-- Record an axis field in the current report's layout if that axis is
still unset, per the parser's first-wins assignments. -/
def assignUsage (st : ParserState) (u base_bit : Nat) : ParserState :=
  let rid := st.current_report_id
  let L := st.tmp_layouts rid
  if u = 0x30 then
    if L.x_size = 0 then
      let L' := { L with x_bit_offset := base_bit, x_size := st.report_size }
      { st with tmp_layouts := updAt st.tmp_layouts rid L' }
    else st
  else if u = 0x31 then
    if L.y_size = 0 then
      let L' := { L with y_bit_offset := base_bit, y_size := st.report_size }
      { st with tmp_layouts := updAt st.tmp_layouts rid L' }
    else st
  else if u = 0x38 then
    if L.wheel_size = 0 then
      let L' := { L with wheel_bit_offset := base_bit, wheel_size := st.report_size }
      { st with tmp_layouts := updAt st.tmp_layouts rid L' }
    else st
  else st

/-- Handling of a Main `Input` item (tag 8) by the layouts parser. -/
def handleInput (st : ParserState) (item_value : Nat) : ParserState :=
  if item_value &&& 0x01 = 0 then
    if st.report_used st.current_report_id then
      let b' := (st.report_bits st.current_report_id + st.report_count * st.report_size) % U32
      { st with report_bits := updAt st.report_bits st.current_report_id b' }
    else st
  else
    let st := markReportUsed st
    let rid := st.current_report_id
    let base_bit := st.report_bits rid
    let st :=
      if st.usage_page = 0x09 then
        let L := st.tmp_layouts rid
        if L.buttons_count = 0 then
          let L' := { L with buttons_bit_offset := base_bit
                             buttons_count := st.report_count % 65536 }
          { st with tmp_layouts := updAt st.tmp_layouts rid L' }
        else st
      else if st.usage_page = 0x01 then
        if st.have_usage_min_max then
          (List.range' st.usage_min (st.usage_max + 1 - st.usage_min)).foldl
            (fun acc u => assignUsage acc u (base_bit + (u - st.usage_min) * st.report_size))
            st
        else if st.last_usage ≠ 0 then
          assignUsage st st.last_usage base_bit
        else st
      else st
    let b' := (st.report_bits rid + st.report_count * st.report_size) % U32
    { st with
      report_bits := updAt st.report_bits rid b'
      last_usage := 0
      have_usage_min_max := false }

/-- Dispatch one descriptor item to the parser state, exactly as the
`item_type` / `item_tag` switches of `parse_hid_report_descriptor_layouts`
do (Global tag 7 = Report Size, tag 8 = Report Count, tag 9 = Report ID
in this code). -/
def processItem (st : ParserState) (item_type item_tag item_value : Nat) :
    ParserState :=
  if item_type = 1 then
    if item_tag = 0x00 then { st with usage_page := item_value }
    else if item_tag = 0x07 then { st with report_size := item_value }
    else if item_tag = 0x08 then { st with report_count := item_value }
    else if item_tag = 0x09 then
      markReportUsed { st with current_report_id := item_value % 256 }
    else st
  else if item_type = 2 then
    if item_tag = 0x00 then
      { st with last_usage := item_value, have_usage_min_max := false }
    else if item_tag = 0x01 then
      { st with usage_min := item_value, have_usage_min_max := true }
    else if item_tag = 0x02 then
      { st with usage_max := item_value, have_usage_min_max := true }
    else st
  else if item_type = 0 then
    if item_tag = 0x08 then handleInput st item_value
    else st
  else st

/-- The descriptor scan loop: decode the item prefix at `offset`, stop
when the payload would run past the end, otherwise process the item and
advance.  The loop advances `offset` by at least one byte per step, so
a fuel of `desc.length` steps (supplied by the wrapper below) is enough
to reach the exit condition; structural recursion on the fuel keeps the
function kernel-reducible. -/
def parseLoop (desc : List Nat) : Nat → Nat → ParserState → ParserState
  | 0, _, st => st
  | fuel + 1, offset, st =>
    if offset < desc.length then
      let item := desc.getD offset 0
      let item_type := (item >>> 2) &&& 0x03
      let item_tag := (item >>> 4) &&& 0x0F
      let item_size := item &&& 0x03
      let payload_bytes := if item_size = 3 then 4 else item_size
      if offset + payload_bytes ≥ desc.length then st
      else
        let item_value :=
          (List.range payload_bytes).foldl
            (fun v i => v ||| (desc.getD (offset + 1 + i) 0 <<< (8 * i))) 0
        parseLoop desc fuel (offset + 1 + payload_bytes)
          (processItem st item_type item_tag item_value)
    else st

/-- Function `parse_hid_report_descriptor_layouts`: scan the descriptor, then
collect the used report ids in ascending order (recording
`report_size_bits`), truncated to `max_layouts` entries. -/
def parse_hid_report_descriptor_layouts (desc : List Nat) (max_layouts : Nat) :
    List HidReportLayout :=
  if desc.length = 0 ∨ max_layouts = 0 then []
  else
    let st := parseLoop desc desc.length 0 initParserState
    ((List.range 256).filterMap
      (fun rid =>
        if st.report_used rid then
          some ({ st.tmp_layouts rid with report_size_bits := st.report_bits rid })
        else none)).take max_layouts

/- =====================================================================
   Report decoding in `hid_host_mouse_report_callback` (part_004)
   ===================================================================== -/

/-- Constant `HID_REPORT_ID_SIZE_BITS` (a report id occupies one byte). -/
def HID_REPORT_ID_SIZE_BITS : Nat := 8

/-- Truncate an `int32_t` value to `int16_t` as the C cast does. -/
def toInt16 (v : Int) : Int :=
  let m := v % 65536
  if m < 32768 then m else m - 65536

/-- Truncate an `int32_t` value to `int8_t` as the C cast does. -/
def toInt8 (v : Int) : Int :=
  let m := v % 256
  if m < 128 then m else m - 256

/-- The `{buttons_u, x, y, wheel}` tuple decoded from a pointing report. -/
structure DecodedMouse where
  buttons_u : Nat
  x : Int
  y : Int
  wheel : Int
deriving Repr, DecidableEq

/-- Layout selection of the mouse callback for packets of length ≥ 5
(the cache is a pure lookup memo and is omitted): first an exact
`report_id` match with enough bits, then a `report_id == 0` layout with
enough bits. -/
def find_layout (layouts : List HidReportLayout) (data : List Nat) :
    Option HidReportLayout :=
  if layouts.length = 0 then none
  else
    let pid := data.getD 0 0
    match layouts.find? (fun L =>
        (L.report_id != 0) && (pid == L.report_id) &&
        decide (L.report_size_bits ≤ data.length * 8)) with
    | some L => some L
    | none =>
      layouts.find? (fun L =>
        (L.report_id == 0) && decide (L.report_size_bits ≤ data.length * 8))

/-- The `use_layout` decode branch of `hid_host_mouse_report_callback`:
skip 8 bits when the layout has a report id (rejecting packets shorter
than 2 bytes in that case), extract buttons unsigned and the axes
sign-extended, truncating to the target widths. -/
def decode_with_layout (L : HidReportLayout) (data : List Nat) :
    Option DecodedMouse :=
  let adj := if L.report_id ≠ 0 then HID_REPORT_ID_SIZE_BITS else 0
  if L.report_id ≠ 0 ∧ data.length < 2 then none
  else
    some
      { buttons_u := get_bits_u32 data (L.buttons_bit_offset + adj) L.buttons_count
        x := if L.x_size ≠ 0 then toInt16 (get_bits_s32 data (L.x_bit_offset + adj) L.x_size) else 0
        y := if L.y_size ≠ 0 then toInt16 (get_bits_s32 data (L.y_bit_offset + adj) L.y_size) else 0
        wheel := if L.wheel_size ≠ 0 then toInt8 (get_bits_s32 data (L.wheel_bit_offset + adj) L.wheel_size) else 0 }

/-- The button value handed to `mouse_accumulator_add` after a layout
decode with `buttons_count > 0`: the callback masks the decoded buttons
down to the low 3 bits (`buttons_u & 0x07`). -/
def buttonsFinalFromLayout (d : DecodedMouse) : Nat :=
  d.buttons_u &&& 0x07

/- =====================================================================
   Consumer-control pass-through (`hid_host_generic_report_callback`)
   ===================================================================== -/

/-- The C `size_t` image of a signed `int` copy length (the implicit
conversion in `memcpy(dst, src, length - 1)` with `int length`):
negative values wrap modulo 2^64. -/
def sizeT (n : Int) : Nat := (n % 18446744073709551616).toNat

/-- Function `hid_host_generic_report_callback` reduced to its forwarding
decision: with packet length `length` it computes
`report_length_without_report_id = length - 1` as a signed `int` and,
when that is ≤ 2, copies `sizeT (length - 1)` bytes from `data[1]`
into a 2-byte buffer and forwards.  Returns the copy length actually
passed to `memcpy` when forwarding happens. -/
def generic_report_forward (length : Int) : Option Nat :=
  let report_length_without_report_id := length - 1
  if report_length_without_report_id ≤ 2 then
    some (sizeT report_length_without_report_id)
  else
    none

/- =====================================================================
   Ring invariant and concrete states used by the theorems below
   ===================================================================== -/

/-- Representation invariant of the event ring claimed by the spec:
`count` never exceeds the capacity and `head - tail` equals `count` in
`uint32_t` modular arithmetic (the stored indices being `uint32_t`
values below `2^32`). -/
def RingInv (r : EventRing) : Prop :=
  r.head < U32 ∧ r.tail < U32 ∧ r.count ≤ RING_BUFFER_CAPACITY ∧
  (U32 + r.head - r.tail) % U32 = r.count

instance (r : EventRing) : Decidable (RingInv r) := by
  unfold RingInv
  infer_instance

/-- A full ring (128 default events, `head = 128`, `tail = 0`),
used to witness the overwrite behaviour of `ring_push`. -/
def fullRingState : AccState :=
  { initialAccState with
    ring := { initialAccState.ring with head := RING_BUFFER_CAPACITY
                                        count := RING_BUFFER_CAPACITY } }

/-- State after two pushes of `dx = 20000` at `t = 100` into the fresh
accumulator: the saturation scenario of the spec (`sum_dx = 40000`). -/
def burstState : AccState :=
  mouse_accumulator_add
    (mouse_accumulator_add initialAccState 100 20000 0 0 0) 100 20000 0 0 0

/-- State holding one motionless, flagless event with `buttons = 0`
while `last_known_buttons = 1`: the preview loop finds no
button-changed flag in the window although the final window button
state differs from the last transmitted one. -/
def staleButtonState : AccState :=
  { initialAccState with
    ring := { initialAccState.ring with
      events := initialAccState.ring.events.set 0
        { t_us := 0, dx := 0, dy := 0, wheel := 0, buttons := 0, flags := 0 }
      head := 1, count := 1 }
    last_known_buttons := 1 }

/-- The report layout of the spec's leading-report-id scenario:
`report_id = 2`, buttons at bit 0 (16 wide), X at bit 16 (12 wide),
Y at bit 28 (12 wide), wheel at bit 40 (8 wide), 56 bits total. -/
def scenarioLayout : HidReportLayout :=
  { report_id := 2, buttons_count := 16, buttons_bit_offset := 0
    x_bit_offset := 16, x_size := 12, y_bit_offset := 28, y_size := 12
    wheel_bit_offset := 40, wheel_size := 8, report_size_bits := 56 }

/-- The input report of the spec's leading-report-id scenario. -/
def scenarioReport : List Nat := [0x02, 0x02, 0x00, 0xFF, 0xF0, 0x00, 0x05, 0x00]

/-- A plain 5-byte layout without report id: 8 button bits at bit 0,
8-bit X at bit 8, 8-bit Y at bit 16, 8-bit wheel at bit 24. -/
def plainLayout : HidReportLayout :=
  { report_id := 0, buttons_count := 8, buttons_bit_offset := 0
    x_bit_offset := 8, x_size := 8, y_bit_offset := 16, y_size := 8
    wheel_bit_offset := 24, wheel_size := 8, report_size_bits := 40 }

/-- A report for `plainLayout` pressing left (bit 0) and back (bit 3)
with `dx = 1`: buttons byte `0x19`. -/
def sideButtonReport : List Nat := [0x19, 0x01, 0x00, 0x00, 0x00]

/-- A descriptor exercising the parser's report-id handling, written
with the standard HID 1.11 encoding: `85 02` Report ID (2) [global tag
1000], `05 09` Usage Page (Button), `75 01` Report Size (1), `95 08`
Report Count (8) [global tag 1001], `81 03` Input (the parser records
fields only when bit 0 of the Input value is set). -/
def reportIdDescriptor : List Nat :=
  [0x85, 0x02, 0x05, 0x09, 0x75, 0x01, 0x95, 0x08, 0x81, 0x03]

/-- Five bytes of all-ones, for probing the bit extractor. -/
def onesBuffer : List Nat := [0xFF, 0xFF, 0xFF, 0xFF, 0xFF]

/- =====================================================================
   Theorems
   ===================================================================== -/

/-- Helper: `takeWhile` never lengthens a list. -/
theorem takeWhile_length_le_self {α : Type} (p : α → Bool) :
    ∀ l : List α, (l.takeWhile p).length ≤ l.length
  | [] => by simp
  | a :: t => by
    by_cases h : p a = true
    · simpa [List.takeWhile_cons, h] using takeWhile_length_le_self p t
    · simp [List.takeWhile_cons, h]

/-- Helper: the preview loop never counts more events than the ring holds. -/
theorem numToConsume_le_count (s : AccState) (t_now : Nat) :
    numToConsume s t_now ≤ s.ring.count := by
  have h1 : (windowEvents s t_now).length ≤ (ringList s).length :=
    takeWhile_length_le_self _ _
  have h2 : (ringList s).length = s.ring.count := by
    simp [ringList]
  exact h2 ▸ h1

/-- C1: when the sink send fails, `mouse_accumulator_try_send` leaves
the ring contents, `head`, `tail`, `count`, the residuals, the
watermark `t_last_send_us` and `last_known_buttons` exactly as they
were before the call (whether or not the sink was even reached); only
the diagnostic failure counter may change. -/
theorem try_send_failure_keeps_resampler_state (s : AccState) (t_now : Nat)
    (connected : Bool) :
    (mouse_accumulator_try_send s t_now connected false).state.ring.events = s.ring.events ∧
    (mouse_accumulator_try_send s t_now connected false).state.ring.head = s.ring.head ∧
    (mouse_accumulator_try_send s t_now connected false).state.ring.tail = s.ring.tail ∧
    (mouse_accumulator_try_send s t_now connected false).state.ring.count = s.ring.count ∧
    (mouse_accumulator_try_send s t_now connected false).state.residual_dx = s.residual_dx ∧
    (mouse_accumulator_try_send s t_now connected false).state.residual_dy = s.residual_dy ∧
    (mouse_accumulator_try_send s t_now connected false).state.residual_wheel = s.residual_wheel ∧
    (mouse_accumulator_try_send s t_now connected false).state.t_last_send_us = s.t_last_send_us ∧
    (mouse_accumulator_try_send s t_now connected false).state.last_known_buttons = s.last_known_buttons := by
  unfold mouse_accumulator_try_send
  cases connected
  · simp
  · by_cases h : previewMotionDirty s t_now = false ∧ previewButtonDirty s t_now = false <;>
      simp [h]

/-- C3: evaluation of the layouts parser on a descriptor that declares
Report ID 2 (HID 1.11 global tag 1000, bytes `85 02`) and Report Count
8 (tag 1001, bytes `95 08`) before an Input of button usages.  The
parser files the layout under report id 8 (the Report Count payload),
records `buttons_count = 2` (the Report ID payload) and stores
`buttons_bit_offset = 8`, counting the report-id byte into the offset —
where the claim requires one layout for report id 2 with buttons at bit
offset 0 relative to the byte after the id. -/
theorem parser_report_id_handling_eval :
    parse_hid_report_descriptor_layouts reportIdDescriptor 8 =
      [{ report_id := 8, buttons_count := 2, buttons_bit_offset := 8
         x_bit_offset := 0, x_size := 0, y_bit_offset := 0, y_size := 0
         wheel_bit_offset := 0, wheel_size := 0, report_size_bits := 10 }] := by
  decide

/-- C4 counterexample: with the scenario layout in the catalog, the
scenario report does not decode to the tuple the spec promises
(`buttons = 2, dx = -1, dy = 0, wheel = 5`). -/
theorem scenario_decode_counterexample :
    ¬ ((find_layout [scenarioLayout] scenarioReport).bind
        (fun L => decode_with_layout L scenarioReport)
      = some { buttons_u := 2, x := -1, y := 0, wheel := 5 }) := by
  decide

/-- C4 amended: with the scenario layout in the catalog, the scenario
report `[02 02 00 FF F0 00 05 00]` decodes to `buttons = 0x02`,
`dx = 255`, `dy = 15`, `wheel = 5`: the low-order bits of the 12-bit X
field live in byte 3 and the low nibble of byte 4, so `FF F0` puts
`0x0FF = 255` in X and `0x00F = 15` in Y. -/
theorem scenario_decode_eval :
    (find_layout [scenarioLayout] scenarioReport).bind
        (fun L => decode_with_layout L scenarioReport)
      = some { buttons_u := 2, x := 255, y := 15, wheel := 5 } := by
  decide

/-- C5: evaluation of the decode-and-forward pipeline on a report that
presses left (bit 0) and back (bit 3).  The callback masks the decoded
buttons `0x19` down to `0x01` before handing them to the accumulator,
so the outbound report's byte 0 is `0x01`, not the low five decoded
bits `0x19` required by the claim. -/
theorem side_buttons_dropped_eval :
    (decode_with_layout plainLayout sideButtonReport).map buttonsFinalFromLayout
        = some 0x01 ∧
    (mouse_accumulator_try_send
        (mouse_accumulator_add initialAccState 100 1 0 0 0x01) 1000 true true).sent
      = some [0x01, 0x01, 0x00, 0x00, 0x00, 0x00] ∧
    (0x19 &&& 0x1F : Nat) = 0x19 := by
  decide

/-- C6 counterexample: after the 40000-count burst is sent (residual
7233), the next tick with no new pushes transmits nothing at all and
the residual stays 7233, while the claim promises an outbound
`dx = 7233` and a zero residual. -/
theorem residual_not_flushed_counterexample :
    (mouse_accumulator_try_send burstState 1000 true true).state.residual_dx = 7233 ∧
    (mouse_accumulator_try_send
        (mouse_accumulator_try_send burstState 1000 true true).state 2000 true true).sent
      = none ∧
    (mouse_accumulator_try_send
        (mouse_accumulator_try_send burstState 1000 true true).state 2000 true true).state.residual_dx
      = 7233 := by
  decide

/-- C8 counterexample: a window whose only event carries no
button-changed flag leaves `button_dirty` false even though the final
window button state (0) differs from the last transmitted state (1),
and the tick sends nothing — the claim's `btn ≠ last_sent_buttons`
disjunct is absent from the code. -/
theorem button_dirty_formula_counterexample :
    previewButtonDirty staleButtonState 1000 = false ∧
    previewBtn staleButtonState 1000 ≠ staleButtonState.last_known_buttons ∧
    (mouse_accumulator_try_send staleButtonState 1000 true true).sent = none := by
  decide

/-- C9 counterexample: a bit size of 33 is not clamped to 32; the
extractor returns 0 although the same call with bit size 32 returns
`0xFFFFFFFF` on an all-ones buffer. -/
theorem bit_size_not_clamped_counterexample :
    get_bits_u32 onesBuffer 0 33 = 0 ∧
    get_bits_u32 onesBuffer 0 32 = 4294967295 := by
  decide

/-- C10: the consumer-control pass-through forwards packets of length
1..3 with a copy length of exactly `length - 1` (which fits the 2-byte
destination), but a zero-length packet turns `-1` into the `size_t`
value `2^64 - 1`, far beyond the destination, so `length ≥ 1` is a
necessary precondition for the `memcpy` to stay in bounds. -/
theorem generic_forward_copy_length (length : Int) :
    (1 ≤ length → length ≤ 3 →
      generic_report_forward length = some (length - 1).toNat ∧ (length - 1).toNat ≤ 2) ∧
    (generic_report_forward 0 = some 18446744073709551615 ∧
      2 < 18446744073709551615) := by
  constructor
  · intro h1 h3
    unfold generic_report_forward sizeT
    have hle : length - 1 ≤ 2 := by omega
    have hmod : (length - 1) % 18446744073709551616 = length - 1 := by omega
    rw [if_pos hle, hmod]
    exact ⟨rfl, by omega⟩
  · exact ⟨by decide, by decide⟩

/-- Witness for C10 at `length = 3`: three bytes forward two. -/
theorem generic_forward_copy_length_witness :
    generic_report_forward 3 = some ((3 : Int) - 1).toNat ∧ ((3 : Int) - 1).toNat ≤ 2 :=
  (generic_forward_copy_length 3).1 (by decide) (by decide)

end BleBridge

namespace BleBridge

/-- C7: pushing onto a full ring (`count = 128`) overwrites the slot at
`head & MASK`, advances both `head` and `tail`, increments
`overflow_count` and leaves `count` at the capacity; moreover every
push, batch pop and clear preserves the ring invariants
(`count ≤ capacity` and `head - tail = count` in `uint32_t` modular
arithmetic). -/
theorem ring_ops_preserve_invariants (s : AccState) (e : MouseEvent) (n t : Nat)
    (hinv : RingInv s.ring) :
    (s.ring.count = RING_BUFFER_CAPACITY →
      (ring_push s e).ring.events
          = s.ring.events.set (s.ring.head % RING_BUFFER_CAPACITY) e ∧
      (ring_push s e).ring.head = (s.ring.head + 1) % U32 ∧
      (ring_push s e).ring.tail = (s.ring.tail + 1) % U32 ∧
      (ring_push s e).ring.overflow_count = (s.ring.overflow_count + 1) % U32 ∧
      (ring_push s e).ring.count = RING_BUFFER_CAPACITY) ∧
    RingInv (ring_push s e).ring ∧
    RingInv (ring_pop_batch s n).ring ∧
    RingInv (mouse_accumulator_clear s t).ring := by
  obtain ⟨hh, ht, hc, hmod⟩ := hinv
  refine ⟨?_, ?_, ?_, ?_⟩
  · intro hfull
    unfold ring_push
    rw [if_neg (by omega)]
    exact ⟨rfl, rfl, rfl, rfl, hfull⟩
  · unfold ring_push RingInv
    by_cases hlt : s.ring.count < RING_BUFFER_CAPACITY
    · rw [if_pos hlt]
      simp only [RING_BUFFER_CAPACITY, U32] at *
      refine ⟨by omega, by omega, by omega, by omega⟩
    · rw [if_neg hlt]
      simp only [RING_BUFFER_CAPACITY, U32] at *
      refine ⟨by omega, by omega, by omega, by omega⟩
  · unfold ring_pop_batch RingInv
    by_cases hgt : n > s.ring.count
    · rw [if_pos hgt]
      simp only [RING_BUFFER_CAPACITY, U32] at *
      refine ⟨by omega, by omega, by omega, by omega⟩
    · rw [if_neg hgt]
      simp only [RING_BUFFER_CAPACITY, U32] at *
      refine ⟨by omega, by omega, by omega, by omega⟩
  · unfold mouse_accumulator_clear RingInv
    simp [RING_BUFFER_CAPACITY, U32]

/-- Witness for C7 on a concrete full ring: the overwrite behaviour and
the preserved invariant, instantiated at `fullRingState`. -/
theorem ring_ops_preserve_invariants_witness :
    ((ring_push fullRingState default).ring.count = RING_BUFFER_CAPACITY ∧
      (ring_push fullRingState default).ring.tail = (fullRingState.ring.tail + 1) % U32) ∧
    RingInv (ring_push fullRingState default).ring :=
  ⟨⟨((ring_ops_preserve_invariants fullRingState default 5 7 (by decide)).1 (by decide)).2.2.2.2,
    ((ring_ops_preserve_invariants fullRingState default 5 7 (by decide)).1 (by decide)).2.2.1⟩,
   (ring_ops_preserve_invariants fullRingState default 5 7 (by decide)).2.1⟩

/-- Helper: the shape of a successful transmitting tick (connected sink
that accepts): the previewed events are popped and the watermark,
residuals and button state are committed, while the outbound report
carries the saturated sums. -/
theorem try_send_true_true_eq (s : AccState) (t_now : Nat)
    (hd : ¬(previewMotionDirty s t_now = false ∧ previewButtonDirty s t_now = false)) :
    mouse_accumulator_try_send s t_now true true =
      { state :=
          { (if numToConsume s t_now > 0 then ring_pop_batch s (numToConsume s t_now) else s) with
            t_last_send_us := t_now
            residual_dx := previewSumDx s t_now - clamp_s32 (previewSumDx s t_now) (-32767) 32767
            residual_dy := previewSumDy s t_now - clamp_s32 (previewSumDy s t_now) (-32767) 32767
            residual_wheel := previewSumWheel s t_now - clamp_s32 (previewSumWheel s t_now) (-127) 127
            last_known_buttons := previewBtn s t_now
            total_packets_sent :=
              ((if numToConsume s t_now > 0 then ring_pop_batch s (numToConsume s t_now) else s).total_packets_sent + 1) % U32 }
        sent := some
          [previewBtn s t_now &&& 0x1F,
           int16LoByte (clamp_s32 (previewSumDx s t_now) (-32767) 32767),
           int16HiByte (clamp_s32 (previewSumDx s t_now) (-32767) 32767),
           int16LoByte (clamp_s32 (previewSumDy s t_now) (-32767) 32767),
           int16HiByte (clamp_s32 (previewSumDy s t_now) (-32767) 32767),
           int8Byte (clamp_s32 (previewSumWheel s t_now) (-127) 127)] } := by
  unfold mouse_accumulator_try_send
  simp [hd]

/-- C2: when the tick transmits and the sink accepts, exactly the
`num_to_consume` previewed events are removed from the ring (its count
drops by that number), and for each axis the sum of the consumed
events' displacements equals the transmitted (saturated) value plus
the residual stored after the call minus the residual before it. -/
theorem try_send_success_commits_window (s : AccState) (t_now : Nat)
    (h : (mouse_accumulator_try_send s t_now true true).sent.isSome = true) :
    (mouse_accumulator_try_send s t_now true true).state.ring.count
        = s.ring.count - numToConsume s t_now ∧
    ((windowEvents s t_now).map (fun e => e.dx)).sum
        = clamp_s32 (previewSumDx s t_now) (-32767) 32767
          + (mouse_accumulator_try_send s t_now true true).state.residual_dx
          - s.residual_dx ∧
    ((windowEvents s t_now).map (fun e => e.dy)).sum
        = clamp_s32 (previewSumDy s t_now) (-32767) 32767
          + (mouse_accumulator_try_send s t_now true true).state.residual_dy
          - s.residual_dy ∧
    ((windowEvents s t_now).map (fun e => e.wheel)).sum
        = clamp_s32 (previewSumWheel s t_now) (-127) 127
          + (mouse_accumulator_try_send s t_now true true).state.residual_wheel
          - s.residual_wheel := by
  have hle := numToConsume_le_count s t_now
  by_cases hd : previewMotionDirty s t_now = false ∧ previewButtonDirty s t_now = false
  · exfalso
    unfold mouse_accumulator_try_send at h
    simp [hd] at h
  · rw [try_send_true_true_eq s t_now hd]
    refine ⟨?_, ?_, ?_, ?_⟩
    · by_cases hn : numToConsume s t_now > 0
      · simp only [hn, if_pos]
        unfold ring_pop_batch
        rw [if_neg (by omega)]
      · have h0 : numToConsume s t_now = 0 := by omega
        simp [hn, h0]
    · unfold previewSumDx
      ring
    · unfold previewSumDy
      ring
    · unfold previewSumWheel
      ring

end BleBridge

namespace BleBridge

/-- Witness for C2 on the concrete burst state: two events summing to
40000 are previewed at tick time 1000 and committed. -/
theorem try_send_success_commits_window_witness :
    (mouse_accumulator_try_send burstState 1000 true true).state.ring.count
        = burstState.ring.count - numToConsume burstState 1000 ∧
    ((windowEvents burstState 1000).map (fun e => e.dx)).sum
        = clamp_s32 (previewSumDx burstState 1000) (-32767) 32767
          + (mouse_accumulator_try_send burstState 1000 true true).state.residual_dx
          - burstState.residual_dx ∧
    ((windowEvents burstState 1000).map (fun e => e.dy)).sum
        = clamp_s32 (previewSumDy burstState 1000) (-32767) 32767
          + (mouse_accumulator_try_send burstState 1000 true true).state.residual_dy
          - burstState.residual_dy ∧
    ((windowEvents burstState 1000).map (fun e => e.wheel)).sum
        = clamp_s32 (previewSumWheel burstState 1000) (-127) 127
          + (mouse_accumulator_try_send burstState 1000 true true).state.residual_wheel
          - burstState.residual_wheel :=
  try_send_success_commits_window burstState 1000 (by decide)

/-- Helper: the clamp function lands inside its bounds. -/
theorem clamp_s32_mem (v lo hi : Int) (hlohi : lo ≤ hi) :
    lo ≤ clamp_s32 v lo hi ∧ clamp_s32 v lo hi ≤ hi := by
  unfold clamp_s32
  by_cases h1 : v < lo
  · simp only [h1, if_pos]
    omega
  · rw [if_neg h1]
    by_cases h2 : v > hi
    · simp only [h2, if_pos]
      omega
    · rw [if_neg h2]
      omega

/-- C6 (amended): every transmitted report carries each axis saturated
to the sink's field width — X/Y to `[-32767, 32767]` (so `-32768` is
never transmitted) and wheel to `[-127, 127]` — and stores
`sum - transmitted` as the new residual.  In the concrete 40000-count
scenario the tick transmits `dx = 32767` (bytes `FF 7F`) and keeps
`residual_dx = 7233`; a following tick with no new pushes transmits
nothing and leaves the residual at 7233, because an empty window sets
neither dirty flag. -/
theorem try_send_saturates_to_sink_widths (s : AccState) (t_now : Nat)
    (h : (mouse_accumulator_try_send s t_now true true).sent.isSome = true) :
    (mouse_accumulator_try_send s t_now true true).sent
      = some [previewBtn s t_now &&& 0x1F,
              int16LoByte (clamp_s32 (previewSumDx s t_now) (-32767) 32767),
              int16HiByte (clamp_s32 (previewSumDx s t_now) (-32767) 32767),
              int16LoByte (clamp_s32 (previewSumDy s t_now) (-32767) 32767),
              int16HiByte (clamp_s32 (previewSumDy s t_now) (-32767) 32767),
              int8Byte (clamp_s32 (previewSumWheel s t_now) (-127) 127)] ∧
    (-32767 ≤ clamp_s32 (previewSumDx s t_now) (-32767) 32767 ∧
      clamp_s32 (previewSumDx s t_now) (-32767) 32767 ≤ 32767) ∧
    (-32767 ≤ clamp_s32 (previewSumDy s t_now) (-32767) 32767 ∧
      clamp_s32 (previewSumDy s t_now) (-32767) 32767 ≤ 32767) ∧
    (-127 ≤ clamp_s32 (previewSumWheel s t_now) (-127) 127 ∧
      clamp_s32 (previewSumWheel s t_now) (-127) 127 ≤ 127) ∧
    (mouse_accumulator_try_send s t_now true true).state.residual_dx
      = previewSumDx s t_now - clamp_s32 (previewSumDx s t_now) (-32767) 32767 ∧
    (mouse_accumulator_try_send s t_now true true).state.residual_dy
      = previewSumDy s t_now - clamp_s32 (previewSumDy s t_now) (-32767) 32767 ∧
    (mouse_accumulator_try_send s t_now true true).state.residual_wheel
      = previewSumWheel s t_now - clamp_s32 (previewSumWheel s t_now) (-127) 127 ∧
    (mouse_accumulator_try_send burstState 1000 true true).sent
      = some [0x00, 0xFF, 0x7F, 0x00, 0x00, 0x00] ∧
    (mouse_accumulator_try_send burstState 1000 true true).state.residual_dx = 7233 ∧
    (mouse_accumulator_try_send
        (mouse_accumulator_try_send burstState 1000 true true).state 2000 true true).sent
      = none ∧
    (mouse_accumulator_try_send
        (mouse_accumulator_try_send burstState 1000 true true).state 2000 true true).state.residual_dx
      = 7233 := by
  by_cases hd : previewMotionDirty s t_now = false ∧ previewButtonDirty s t_now = false
  · exfalso
    unfold mouse_accumulator_try_send at h
    simp [hd] at h
  · rw [try_send_true_true_eq s t_now hd]
    refine ⟨rfl, clamp_s32_mem _ _ _ (by omega), clamp_s32_mem _ _ _ (by omega),
      clamp_s32_mem _ _ _ (by omega), rfl, rfl, rfl, by decide, by decide, by decide, by decide⟩

/-- Witness for C6 on the concrete burst state at tick time 1000. -/
theorem try_send_saturates_to_sink_widths_witness :
    (mouse_accumulator_try_send burstState 1000 true true).sent
      = some [previewBtn burstState 1000 &&& 0x1F,
              int16LoByte (clamp_s32 (previewSumDx burstState 1000) (-32767) 32767),
              int16HiByte (clamp_s32 (previewSumDx burstState 1000) (-32767) 32767),
              int16LoByte (clamp_s32 (previewSumDy burstState 1000) (-32767) 32767),
              int16HiByte (clamp_s32 (previewSumDy burstState 1000) (-32767) 32767),
              int8Byte (clamp_s32 (previewSumWheel burstState 1000) (-127) 127)] ∧
    (-32767 ≤ clamp_s32 (previewSumDx burstState 1000) (-32767) 32767 ∧
      clamp_s32 (previewSumDx burstState 1000) (-32767) 32767 ≤ 32767) :=
  ⟨(try_send_saturates_to_sink_widths burstState 1000 (by decide)).1,
   (try_send_saturates_to_sink_widths burstState 1000 (by decide)).2.1⟩

end BleBridge

namespace BleBridge

/-- Helper: every element the consumer's view of the ring exposes is
either a slot of the backing array or the default record (for the
degenerate out-of-range reads `getD` absorbs). -/
theorem mem_of_mem_ringList (s : AccState) (x : MouseEvent) (hx : x ∈ ringList s) :
    x ∈ s.ring.events ∨ x = default := by
  unfold ringList at hx
  simp only [List.mem_map, List.mem_range] at hx
  obtain ⟨i, _, rfl⟩ := hx
  by_cases h : (s.ring.tail + i) % RING_BUFFER_CAPACITY < s.ring.events.length
  · left
    rw [List.getD_eq_getElem _ _ h]
    exact List.getElem_mem h
  · right
    exact List.getD_eq_default _ _ (by omega)

/-- Helper: `ring_push` writes the new event into the slot the consumer
reads as the last of the ring, in both the free-space and the overwrite
branch. -/
theorem pushed_event_mem_ringList (s : AccState) (e : MouseEvent)
    (hlen : s.ring.events.length = RING_BUFFER_CAPACITY)
    (hinv : RingInv s.ring) :
    e ∈ ringList (ring_push s e) := by
  obtain ⟨hh, ht, hc, hmod⟩ := hinv
  have hslot : s.ring.head % RING_BUFFER_CAPACITY < s.ring.events.length := by
    rw [hlen]
    exact Nat.mod_lt _ (by norm_num [RING_BUFFER_CAPACITY])
  unfold ring_push
  by_cases hlt : s.ring.count < RING_BUFFER_CAPACITY
  · rw [if_pos hlt]
    unfold ringList
    simp only [List.mem_map, List.mem_range]
    refine ⟨s.ring.count, ?_, ?_⟩
    · show s.ring.count < (s.ring.count + 1) % U32
      unfold U32 RING_BUFFER_CAPACITY at *
      omega
    · show (s.ring.events.set (s.ring.head % RING_BUFFER_CAPACITY) e).getD
          ((s.ring.tail + s.ring.count) % RING_BUFFER_CAPACITY) default = e
      have hidx : (s.ring.tail + s.ring.count) % RING_BUFFER_CAPACITY
          = s.ring.head % RING_BUFFER_CAPACITY := by
        unfold U32 RING_BUFFER_CAPACITY at *
        omega
      rw [hidx, List.getD_eq_getElem _ _ (by simpa using hslot)]
      simp
  · rw [if_neg hlt]
    unfold ringList
    simp only [List.mem_map, List.mem_range]
    refine ⟨RING_BUFFER_CAPACITY - 1, ?_, ?_⟩
    · show RING_BUFFER_CAPACITY - 1 < s.ring.count
      unfold RING_BUFFER_CAPACITY at *
      omega
    · show (s.ring.events.set (s.ring.head % RING_BUFFER_CAPACITY) e).getD
          (((s.ring.tail + 1) % U32 + (RING_BUFFER_CAPACITY - 1)) % RING_BUFFER_CAPACITY)
          default = e
      have hidx : ((s.ring.tail + 1) % U32 + (RING_BUFFER_CAPACITY - 1)) % RING_BUFFER_CAPACITY
          = s.ring.head % RING_BUFFER_CAPACITY := by
        unfold U32 RING_BUFFER_CAPACITY at *
        omega
      rw [hidx, List.getD_eq_getElem _ _ (by simpa using hslot)]
      simp

/-- Helper: when every ring event is inside the time window, the
preview loop visits the whole ring. -/
theorem windowEvents_eq_ringList_of_all (s : AccState) (t_now : Nat)
    (hall : ∀ x ∈ ringList s, x.t_us ≤ t_now) :
    windowEvents s t_now = ringList s := by
  unfold windowEvents
  rw [List.takeWhile_eq_self_iff]
  intro x hx
  simpa using hall x hx

/-- C8 (amended): the preview loop sets `button_dirty` only from the
events' button-changed flags — a window whose events all carry a clear
flag leaves `button_dirty` false even when the final window button
state differs from `last_known_buttons` — and consequently a push that
changes the button state (zero motion), whose event is flagged by
`mouse_accumulator_add`, makes the next tick whose window covers the
ring transmit a report when the sink accepts. -/
theorem button_edge_preserved_amended (s : AccState) (t_now tpush buttons : Nat)
    (hchg : s.last_usb_buttons ≠ buttons)
    (htp : tpush ≤ t_now)
    (hall : ∀ x ∈ s.ring.events, x.t_us ≤ t_now)
    (hlen : s.ring.events.length = RING_BUFFER_CAPACITY)
    (hinv : RingInv s.ring) :
    ((∀ e ∈ windowEvents s t_now, e.flags &&& EVENT_FLAG_BUTTON_CHANGED = 0) →
      previewButtonDirty s t_now = false) ∧
    (mouse_accumulator_try_send
        (mouse_accumulator_add s tpush 0 0 0 buttons) t_now true true).sent.isSome
      = true := by
  constructor
  · intro hflags
    unfold previewButtonDirty
    rw [List.any_eq_false]
    intro x hx
    have := hflags x hx
    simp [this]
  · have hadd : mouse_accumulator_add s tpush 0 0 0 buttons
        = ring_push { s with last_usb_buttons := buttons }
            { t_us := tpush, dx := 0, dy := 0, wheel := 0
              buttons := buttons &&& 0x1F, flags := EVENT_FLAG_BUTTON_CHANGED } := by
      unfold mouse_accumulator_add
      simp [hchg]
    rw [hadd]
    have hmem : ({ t_us := tpush, dx := 0, dy := 0, wheel := 0
                   buttons := buttons &&& 0x1F, flags := EVENT_FLAG_BUTTON_CHANGED } : MouseEvent)
        ∈ ringList (ring_push { s with last_usb_buttons := buttons }
            { t_us := tpush, dx := 0, dy := 0, wheel := 0
              buttons := buttons &&& 0x1F, flags := EVENT_FLAG_BUTTON_CHANGED }) :=
      pushed_event_mem_ringList _ _ hlen hinv
    have hevents : (ring_push { s with last_usb_buttons := buttons }
            { t_us := tpush, dx := 0, dy := 0, wheel := 0
              buttons := buttons &&& 0x1F, flags := EVENT_FLAG_BUTTON_CHANGED }).ring.events
        = s.ring.events.set (s.ring.head % RING_BUFFER_CAPACITY)
            { t_us := tpush, dx := 0, dy := 0, wheel := 0
              buttons := buttons &&& 0x1F, flags := EVENT_FLAG_BUTTON_CHANGED } := by
      unfold ring_push
      split <;> rfl
    have hall3 : ∀ x ∈ ringList (ring_push { s with last_usb_buttons := buttons }
            { t_us := tpush, dx := 0, dy := 0, wheel := 0
              buttons := buttons &&& 0x1F, flags := EVENT_FLAG_BUTTON_CHANGED }),
        x.t_us ≤ t_now := by
      intro x hx
      rcases mem_of_mem_ringList _ x hx with hx' | rfl
      · rw [hevents] at hx'
        rcases List.mem_or_eq_of_mem_set hx' with hx'' | rfl
        · exact hall x hx''
        · exact htp
      · exact Nat.zero_le t_now
    have hbd : previewButtonDirty (ring_push { s with last_usb_buttons := buttons }
            { t_us := tpush, dx := 0, dy := 0, wheel := 0
              buttons := buttons &&& 0x1F, flags := EVENT_FLAG_BUTTON_CHANGED }) t_now = true := by
      unfold previewButtonDirty
      rw [windowEvents_eq_ringList_of_all _ _ hall3, List.any_eq_true]
      refine ⟨_, hmem, ?_⟩
      simp [EVENT_FLAG_BUTTON_CHANGED]
    unfold mouse_accumulator_try_send
    simp [hbd]

set_option maxRecDepth 4096 in
/-- Witness for C8: a button-only push (buttons 0 to 1) into the fresh
accumulator at time 100 is transmitted by the tick at time 1000. -/
theorem button_edge_preserved_amended_witness :
    ((∀ e ∈ windowEvents initialAccState 1000, e.flags &&& EVENT_FLAG_BUTTON_CHANGED = 0) →
      previewButtonDirty initialAccState 1000 = false) ∧
    (mouse_accumulator_try_send
        (mouse_accumulator_add initialAccState 100 0 0 0 1) 1000 true true).sent.isSome
      = true :=
  button_edge_preserved_amended initialAccState 1000 100 1
    (by decide) (by decide) (by decide) (by decide) (by decide)

end BleBridge

namespace BleBridge

/-- Helper: once the running bit index has passed the end of the
buffer, every remaining specification bit is zero (bit indices only
grow). -/
theorem assembledBits_eq_zero (data : List Nat) (off : Nat) :
    ∀ r i, data.length ≤ (off + i) / 8 → assembledBits data off i r = 0
  | 0, _, _ => rfl
  | r + 1, i, h => by
    have h1 : bitAt data (off + i) = 0 := by
      unfold bitAt
      rw [if_neg (by omega)]
    have h2 : assembledBits data off (i + 1) r = 0 := by
      refine assembledBits_eq_zero data off r (i + 1) ?_
      have := Nat.div_le_div_right (c := 8) (Nat.le_succ (off + i))
      omega
    show (bitAt data (off + i) <<< i) ||| assembledBits data off (i + 1) r = 0
    rw [h1, h2]
    simp

/-- Helper: the extractor loop ORs the accumulator with the
specification bits from the current index on; the early `break` is
covered by the vanishing of all later bits. -/
theorem getBitsLoop_eq_assembled (data : List Nat) (off : Nat) :
    ∀ r i v, getBitsLoop data off i r v = v ||| assembledBits data off i r
  | 0, i, v => by
    show v = v ||| 0
    simp
  | r + 1, i, v => by
    show (if (off + i) / 8 ≥ data.length then v
      else getBitsLoop data off (i + 1) r
        (v ||| (((data.getD ((off + i) / 8) 0 >>> ((off + i) % 8)) &&& 0x1) <<< i)))
      = v ||| ((bitAt data (off + i) <<< i) ||| assembledBits data off (i + 1) r)
    by_cases h : (off + i) / 8 ≥ data.length
    · rw [if_pos h]
      have h1 : bitAt data (off + i) = 0 := by
        unfold bitAt
        rw [if_neg (by omega)]
      have h2 : assembledBits data off (i + 1) r = 0 := by
        refine assembledBits_eq_zero data off r (i + 1) ?_
        have := Nat.div_le_div_right (c := 8) (Nat.le_succ (off + i))
        omega
      rw [h1, h2]
      simp
    · rw [if_neg h]
      rw [getBitsLoop_eq_assembled data off r (i + 1) _]
      have hbit : (data.getD ((off + i) / 8) 0 >>> ((off + i) % 8)) &&& 0x1
          = bitAt data (off + i) := by
        unfold bitAt
        rw [if_pos (by omega)]
      rw [hbit, Nat.or_assoc]

/-- C9 (amended): for bit sizes up to 32 the unsigned extractor returns
exactly the value assembled from the addressed buffer bits, every bit
past the end of the buffer reading as zero; a bit size of zero or
greater than 32 makes both extractors return 0 outright (it is not
clamped to 32). -/
theorem get_bits_reads_in_range_bits (data : List Nat) (bit_offset bit_size : Nat) :
    (bit_size ≤ 32 →
      get_bits_u32 data bit_offset bit_size = assembledBits data bit_offset 0 bit_size) ∧
    (32 < bit_size →
      get_bits_u32 data bit_offset bit_size = 0 ∧
      get_bits_s32 data bit_offset bit_size = 0) := by
  constructor
  · intro h
    unfold get_bits_u32
    by_cases h0 : bit_size = 0
    · subst h0
      rw [if_pos (Or.inl rfl)]
      rfl
    · rw [if_neg (by omega)]
      rw [getBitsLoop_eq_assembled]
      simp
  · intro h
    have hu : get_bits_u32 data bit_offset bit_size = 0 := by
      unfold get_bits_u32
      rw [if_pos (Or.inr h)]
    refine ⟨hu, ?_⟩
    unfold get_bits_s32
    rw [hu, if_neg (by omega)]
    simp [toInt32, U32]

/-- Witness for C9 at an 8-bit read of the all-ones buffer and a 33-bit
read of the same buffer. -/
theorem get_bits_reads_in_range_bits_witness :
    get_bits_u32 onesBuffer 0 8 = assembledBits onesBuffer 0 0 8 ∧
    (get_bits_u32 onesBuffer 3 33 = 0 ∧ get_bits_s32 onesBuffer 3 33 = 0) :=
  ⟨(get_bits_reads_in_range_bits onesBuffer 0 8).1 (by decide),
   (get_bits_reads_in_range_bits onesBuffer 3 33).2 (by decide)⟩

end BleBridge
